import Mathlib

/-!
Shallow embedding of the repository's Python sources:
  - bilk-poker-bankroll-tracker/convert_pokercraft_to_bink.py
  - asynchronous/example-2.py

Python strings are Lean strings; all manipulation is done on character
lists with structural recursion so that every definition evaluates by
kernel reduction.  Python floats are modelled as exact rationals and
Python's round as round-half-to-even on rationals.  Fallible Python code
(int(), float(), list indexing) returns Except String, the error string
naming the Python exception type.  Console logging is I/O and is outside
the embedding; only returned values and raised exceptions are modelled.
-/

/-- Whitespace characters recognised by Python str.strip and str.split. -/
def isSpaceChar (c : Char) : Bool :=
  c = ' ' || c = '\t' || c = '\n' || c = '\r' || c = '\x0b' || c = '\x0c'

/-- Model of Python str.strip on a character list. -/
def trimChars (cs : List Char) : List Char :=
  ((cs.dropWhile isSpaceChar).reverse.dropWhile isSpaceChar).reverse

/-- Model of Python str.strip. -/
def pyStrip (s : String) : String :=
  String.mk (trimChars s.toList)

/-- Model of Python str.replace(c, "") for a one-character pattern, as used
by the converter (replacing "$", "," and " " with the empty string). -/
def removeChar (c : Char) (cs : List Char) : List Char :=
  cs.filter (fun d => d ≠ c)

/-- Model of Python str.split(sep) for a one-character separator: keeps
empty pieces and always returns at least one piece. -/
def splitChars (sep : Char) : List Char → List (List Char)
  | [] => [[]]
  | c :: cs =>
    let r := splitChars sep cs
    if c = sep then [] :: r
    else
      match r with
      | [] => [[c]]
      | g :: gs => (c :: g) :: gs

/-- Model of Python str.split(sep) returning strings. -/
def pySplit (s : String) (sep : Char) : List String :=
  (splitChars sep s.toList).map String.mk

/-- Model of Python str.split() with no argument: split on whitespace runs,
dropping empty pieces.  The accumulator holds the current word reversed. -/
def wordsAux (acc : List Char) : List Char → List (List Char)
  | [] => if acc.isEmpty then [] else [acc.reverse]
  | c :: cs =>
    if isSpaceChar c then
      if acc.isEmpty then wordsAux [] cs else acc.reverse :: wordsAux [] cs
    else
      wordsAux (c :: acc) cs

/-- Words of a character list (Python str.split() with no argument). -/
def pyWordsChars (cs : List Char) : List (List Char) :=
  wordsAux [] cs

/-- Words of a string (Python str.split() with no argument). -/
def pyWords (s : String) : List String :=
  (pyWordsChars s.toList).map String.mk

/-- Join word lists with single spaces (Python " ".join). -/
def joinSpace : List (List Char) → List Char
  | [] => []
  | [w] => w
  | w :: ws => w ++ ' ' :: joinSpace ws

/-- Model of the converter's whitespace normalisation
" ".join(text.split()). -/
def normalizeWS (s : String) : String :=
  String.mk (joinSpace (pyWordsChars s.toList))

/-- Decimal digits of a character list read as a natural number
(callers ensure every character is a digit). -/
def digitsToNat (cs : List Char) : ℕ :=
  cs.foldl (fun n c => 10 * n + (c.toNat - 48)) 0

/-- Every character is a decimal digit. -/
def allDigits (cs : List Char) : Bool :=
  cs.all Char.isDigit

/-- Model of Python int(str): optional surrounding whitespace, optional
sign, then decimal digits.  (Underscore separators are not modelled; the
repository's inputs never contain them.)  Failure is Python ValueError. -/
def parseIntPy (s : String) : Except String ℤ :=
  match trimChars s.toList with
  | [] => .error "ValueError"
  | c :: rest =>
    if c = '+' then
      if !rest.isEmpty && allDigits rest then .ok (digitsToNat rest : ℤ)
      else .error "ValueError"
    else if c = '-' then
      if !rest.isEmpty && allDigits rest then .ok (-(digitsToNat rest : ℤ))
      else .error "ValueError"
    else
      if allDigits (c :: rest) then .ok (digitsToNat (c :: rest) : ℤ)
      else .error "ValueError"

/-- Unsigned decimal literal, with an optional fractional part, as an exact
rational: the body of a Python float literal. -/
def parseDecChars (cs : List Char) : Option ℚ :=
  match splitChars '.' cs with
  | [ip] =>
    if !ip.isEmpty && allDigits ip then some (digitsToNat ip : ℚ) else none
  | [ip, fp] =>
    if (!ip.isEmpty || !fp.isEmpty) && allDigits ip && allDigits fp then
      some ((digitsToNat ip : ℚ) + (digitsToNat fp : ℚ) / ((10 : ℚ) ^ fp.length))
    else none
  | _ => none

/-- Model of Python float(str) on finite decimal literals: optional
surrounding whitespace, optional sign, digits with an optional single
decimal point.  (Exponents, inf/nan and underscores are not modelled; the
repository's currency and blind amounts are plain decimals.)  Failure is
Python ValueError. -/
def parseFloatPy (s : String) : Except String ℚ :=
  match trimChars s.toList with
  | [] => .error "ValueError"
  | c :: rest =>
    if c = '+' then
      match parseDecChars rest with
      | some q => .ok q
      | none => .error "ValueError"
    else if c = '-' then
      match parseDecChars rest with
      | some q => .ok (-q)
      | none => .error "ValueError"
    else
      match parseDecChars (c :: rest) with
      | some q => .ok q
      | none => .error "ValueError"

/-- Round a rational to the nearest integer, ties to even: the integer-level
behaviour of Python round.  Works on the reduced numerator and denominator
with floor division; twice is twice the fractional part scaled by the
denominator, so comparing it with the denominator compares the fractional
part with one half. -/
def roundHalfEven (q : ℚ) : ℤ :=
  let d : ℤ := (q.den : ℤ)
  let f : ℤ := Int.fdiv q.num d
  let twice : ℤ := 2 * (q.num - f * d)
  if twice < d then f
  else if d < twice then f + 1
  else if f % 2 = 0 then f else f + 1

/-- Model of Python round(x, 2) on the exact rational value. -/
def round2 (q : ℚ) : ℚ :=
  (roundHalfEven (q * 100) : ℚ) / 100

/-- Decidable equality for Except, used to evaluate pipeline results on
concrete inputs. -/
instance {ε α : Type} [DecidableEq ε] [DecidableEq α] :
    DecidableEq (Except ε α) := fun a b =>
  match a, b with
  | .ok x, .ok y =>
    if h : x = y then .isTrue (by rw [h])
    else .isFalse (by intro hc; cases hc; exact h rfl)
  | .error x, .error y =>
    if h : x = y then .isTrue (by rw [h])
    else .isFalse (by intro hc; cases hc; exact h rfl)
  | .ok _, .error _ => .isFalse (by intro hc; cases hc)
  | .error _, .ok _ => .isFalse (by intro hc; cases hc)

/-- Model of Python str.upper restricted to ASCII letters, which covers
every pattern the converter matches against. -/
def pyUpper (s : String) : String :=
  String.mk (s.toList.map Char.toUpper)

/-- The first list is a prefix of the second. -/
def leadsChars : List Char → List Char → Bool
  | [], _ => true
  | _ :: _, [] => false
  | p :: ps, h :: hs => p == h && leadsChars ps hs

/-- The first list occurs contiguously inside the second. -/
def containsChars (pat : List Char) : List Char → Bool
  | [] => leadsChars pat []
  | h :: hs => leadsChars pat (h :: hs) || containsChars pat hs

/-- Model of the Python substring test pat in hay. -/
def pyContains (hay pat : String) : Bool :=
  containsChars pat.toList hay.toList

/-- Case-insensitive substring test, the spec's reading of matching against
the uppercased table name. -/
def containsCI (hay pat : String) : Bool :=
  pyContains (pyUpper hay) (pyUpper pat)

/-- Embedding of parse_duration: split the stripped string on a colon and
interpret the parts as hours, minutes and (when a third part is present)
seconds; a single part raises IndexError at parts[1] after int(parts[0])
has been evaluated, mirroring the Python evaluation order. -/
def parse_duration (duration_str : String) : Except String ℚ :=
  match pySplit (pyStrip duration_str) ':' with
  | [] => .error "IndexError"
  | [p0] =>
    match parseIntPy p0 with
    | .error e => .error e
    | .ok _ => .error "IndexError"
  | p0 :: p1 :: rest =>
    match parseIntPy p0 with
    | .error e => .error e
    | .ok hours =>
      match parseIntPy p1 with
      | .error e => .error e
      | .ok minutes =>
        match (match rest with
               | [] => Except.ok (0 : ℤ)
               | p2 :: _ => parseIntPy p2) with
        | .error e => .error e
        | .ok seconds =>
          .ok (round2 ((hours : ℚ) + (minutes : ℚ) / 60 + (seconds : ℚ) / 3600))

/-- Embedding of parse_winloss: strip dollar signs, commas and surrounding
whitespace, then parse as a float. -/
def parse_winloss (winloss_str : String) : Except String ℚ :=
  parseFloatPy (String.mk (trimChars (removeChar ',' (removeChar '$' winloss_str.toList))))

/-- Embedding of parse_stakes: strip surrounding whitespace, then remove
every dollar sign and every space. -/
def parse_stakes (stakes_str : String) : String :=
  String.mk (removeChar ' ' (removeChar '$' (trimChars stakes_str.toList)))

/-- Embedding of parse_game_type: match the uppercased table name. -/
def parse_game_type (table_name : String) : String :=
  let u := pyUpper table_name
  if pyContains u "NLH" || pyContains u "HOLDEM" || pyContains u "HOLD\x27EM" then
    "Texas Hold\x27em"
  else if pyContains u "PLO" || pyContains u "OMAHA" then
    "Omaha"
  else
    "Texas Hold\x27em"

/-- Embedding of estimate_buyin_from_stakes: remove dollar signs, split on
the slash, parse the second part as the big blind and return one hundred
big blinds rounded to two decimals; fewer than two parts raises IndexError
at parts[1]. -/
def estimate_buyin_from_stakes (stakes_str : String) : Except String ℚ :=
  match splitChars '/' (removeChar '$' stakes_str.toList) with
  | _ :: p1 :: _ =>
    match parseFloatPy (String.mk p1) with
    | .error e => .error e
    | .ok big_blind => .ok (round2 (big_blind * 100))
  | _ => .error "IndexError"

/-- Month abbreviations accepted by strptime directive b in the C locale. -/
def monthNames : List String :=
  ["Jan", "Feb", "Mar", "Apr", "May", "Jun",
   "Jul", "Aug", "Sep", "Oct", "Nov", "Dec"]

/-- One-based month number of an abbreviation, matched case-insensitively
as strptime does. -/
def monthIndex (tok : String) : Option ℕ :=
  match monthNames.findIdx? (fun nm => pyUpper nm == pyUpper tok) with
  | some i => some (i + 1)
  | none => none

/-- Gregorian leap-year test used by datetime. -/
def isLeapYear (y : ℤ) : Bool :=
  y % 4 = 0 && (y % 100 ≠ 0 || y % 400 = 0)

/-- Number of days in a month of a given year, as validated by datetime. -/
def daysInMonth (y : ℤ) (m : ℕ) : ℕ :=
  if m = 2 then (if isLeapYear y then 29 else 28)
  else if m = 4 || m = 6 || m = 9 || m = 11 then 30
  else 31

/-- Model of datetime.strptime(date_part ++ " " ++ str(year), "%b %d %Y"):
the data must be a month abbreviation and a one-or-two-digit day between 1
and 31 separated by whitespace, the year rendered by str must be exactly
four digits, and the day must exist in the month.  Returns the month and
day on success, none where Python raises ValueError. -/
def strptime_b_d_Y (date_part : String) (year : ℤ) : Option (ℕ × ℕ) :=
  if 1000 ≤ year ∧ year ≤ 9999 then
    match pyWords date_part with
    | [monTok, dayTok] =>
      match monthIndex monTok with
      | some m =>
        let ds := dayTok.toList
        if allDigits ds && decide (1 ≤ ds.length) && decide (ds.length ≤ 2) then
          let d := digitsToNat ds
          if 1 ≤ d ∧ d ≤ 31 ∧ d ≤ daysInMonth year m then some (m, d) else none
        else none
      | none => none
    | _ => none
  else none

/-- Zero-padded two-digit rendering used by strftime directives m and d. -/
def pad2 (n : ℕ) : String :=
  if n < 10 then "0" ++ Nat.repr n else Nat.repr n

/-- The try block of parse_date as a fallible computation: take the text
before the first comma, strip it, parse it with the year via strptime and
format the result as MM/DD/YYYY.  The year argument is the resolved year
(the Python default of None resolves to the current calendar year before
this point).  A none result is where the Python body raises. -/
def parse_date_attempt (date_str : String) (year : ℤ) : Option String :=
  let date_part := pyStrip ((pySplit date_str ',').headD "")
  (strptime_b_d_Y date_part year).map fun md =>
    pad2 md.1 ++ "/" ++ pad2 md.2 ++ "/" ++ Int.repr year

/-- Embedding of parse_date: the try body with every failure caught and
turned into the empty string (the except branch also logs, which is I/O
outside the embedding). -/
def parse_date (date_str : String) (year : ℤ) : String :=
  (parse_date_attempt date_str year).getD ""

/-- One td element with a mat-cell marker: its class list, its stripped
text, and the stripped text of a nested span with class
mat-tooltip-trigger when such a span exists. -/
structure Cell where
  classes : List String
  text : String
  tooltipText : Option String
deriving DecidableEq

/-- The per-row field dictionary of the converter.  Each field is present
exactly when the corresponding dictionary key has been assigned. -/
structure Session where
  date : Option String := none
  stakes : Option String := none
  table : Option String := none
  gameType : Option String := none
  hands : Option String := none
  duration : Option ℚ := none
  winloss : Option ℚ := none
  buyin : Option ℚ := none
  cashout : Option ℚ := none
deriving DecidableEq

/-- The session dictionary before any cell has been routed. -/
def emptySession : Session := {}

/-- Arguments of convert_pokercraft_to_bink that affect the produced
records.  The year is the resolved year (a Python year=None resolves to
the current calendar year before parsing begins). -/
structure Config where
  year : ℤ
  default_buy_in : Option ℚ
  location : String
  bankroll : String
deriving DecidableEq

/-- Route one cell to its field extractor following the elif chain of the
row loop: the first matching column class wins and unmatched cells leave
the session unchanged.  A date cell without a tooltip span assigns
nothing; duration and winloss cells propagate parse exceptions. -/
def processCell (year : ℤ) (s : Session) (c : Cell) : Except String Session :=
  if "mat-column-SessionStart" ∈ c.classes then
    .ok (match c.tooltipText with
         | some t => { s with date := some (parse_date (normalizeWS t) year) }
         | none => s)
  else if "mat-column-Stakes" ∈ c.classes then
    .ok { s with stakes := some (parse_stakes c.text) }
  else if "mat-column-Table" ∈ c.classes then
    .ok { s with table := some c.text, gameType := some (parse_game_type c.text) }
  else if "mat-column-Hands" ∈ c.classes then
    .ok { s with hands := some c.text }
  else if "mat-column-Duration" ∈ c.classes then
    match parse_duration c.text with
    | .error e => .error e
    | .ok d => .ok { s with duration := some d }
  else if "mat-column-Winloss" ∈ c.classes then
    match parse_winloss c.text with
    | .error e => .error e
    | .ok w => .ok { s with winloss := some w }
  else
    .ok s

/-- Route the cells of one row in order, stopping at the first exception. -/
def processCells (year : ℤ) (s : Session) : List Cell → Except String Session
  | [] => .ok s
  | c :: cs =>
    match processCell year s c with
    | .error e => .error e
    | .ok s2 => processCells year s2 cs

/-- Scan one row starting from the empty session dictionary. -/
def processRow (year : ℤ) (r : List Cell) : Except String Session :=
  processCells year emptySession r

/-- The session dictionary is non-empty: some cell assigned some field. -/
def sessionNonempty (s : Session) : Bool :=
  s.date.isSome || s.stakes.isSome || s.table.isSome ||
    s.gameType.isSome || s.hands.isSome || s.duration.isSome || s.winloss.isSome

/-- Buy-in selection of the row loop: the Python condition
if default_buy_in is a truthiness test, so a present but zero default falls
through to estimation from the stakes, and a missing Stakes key estimates
from the empty string. -/
def chooseBuyin (cfg : Config) (s : Session) : Except String ℚ :=
  match cfg.default_buy_in with
  | some d =>
    if d = 0 then estimate_buyin_from_stakes (s.stakes.getD "")
    else .ok d
  | none => estimate_buyin_from_stakes (s.stakes.getD "")

/-- Finish one scanned row: when the dictionary is non-empty, compute the
buy-in and the cash-out (round(buyin + winloss-or-0, 2)) and keep the
record; an empty dictionary is dropped. -/
def finishSession (cfg : Config) (s : Session) : Except String (Option Session) :=
  if sessionNonempty s then
    (chooseBuyin cfg s).map fun b =>
      some { s with buyin := some b,
                    cashout := some (round2 (b + s.winloss.getD 0)) }
  else
    .ok none

/-- Scan and finish one row. -/
def perRow (cfg : Config) (r : List Cell) : Except String (Option Session) :=
  match processRow cfg.year r with
  | .error e => .error e
  | .ok s => finishSession cfg s

/-- The row loop: process rows in order, accumulating the finished
records; the first uncaught exception aborts the whole loop. -/
def scanRows (cfg : Config) : List (List Cell) → Except String (List Session)
  | [] => .ok []
  | r :: rs =>
    match perRow cfg r with
    | .error e => .error e
    | .ok o =>
      match scanRows cfg rs with
      | .error e => .error e
      | .ok rest =>
        .ok ((match o with | some s => [s] | none => []) ++ rest)

/-- One written CSV data row of the fixed 14-column Bink schema. -/
structure CsvRow where
  date : String
  duration : ℚ
  buyin : ℚ
  cashout : ℚ
  stakes : String
  cashTourney : String
  liveOnline : String
  location : String
  gameType : String
  limitType : String
  expenses : ℚ
  bankroll : String
  actionSold : ℚ
  notes : String
deriving DecidableEq

/-- The exact header written by the converter, in order. -/
def csvHeader : List String :=
  ["Date", "Duration", "Buyin", "Cashout", "Stakes", "Cash/Tourney",
   "Live/online", "Location", "Game Type", "Limit Type", "Expenses",
   "Bankroll", "Action Sold Percentage", "Notes"]

/-- Map one Session Record to its CSV row, with the fixed literals and the
comma-free Notes synthesis of the writer loop. -/
def mkCsvRow (cfg : Config) (s : Session) : CsvRow :=
  let table := s.table.getD ""
  let hands := s.hands.getD ""
  { date := s.date.getD ""
    duration := s.duration.getD 0
    buyin := s.buyin.getD 0
    cashout := s.cashout.getD 0
    stakes := s.stakes.getD ""
    cashTourney := "Cash"
    liveOnline := "Online"
    location := cfg.location
    gameType := s.gameType.getD "Texas Hold\x27em"
    limitType := "No Limit"
    expenses := 0
    bankroll := cfg.bankroll
    actionSold := 0
    notes := if table ≠ "" ∧ hands ≠ "" then table ++ " - " ++ hands ++ " hands" else "" }

/-- Embedding of convert_pokercraft_to_bink after the HTML parse: the
input is the list of tr elements carrying a mat-row marker, each given as
its list of mat-cell cells.  The result pairs the returned session list
with the written file (none when no file is written; the file is the
header plus one CsvRow per session). -/
def convert (cfg : Config) (rows : List (List Cell)) :
    Except String (List Session × Option (List String × List CsvRow)) :=
  if rows.isEmpty then .ok ([], none)
  else
    match scanRows cfg rows with
    | .error e => .error e
    | .ok sessions =>
      if sessions.isEmpty then .ok ([], none)
      else .ok (sessions, some (csvHeader, sessions.map (mkCsvRow cfg)))

/-- A coroutine of example-2.py in the discrete-event model of the
cooperative scheduler: a computation either returns a string or suspends
for a number of time units and continues.  Log calls are I/O and take no
simulated time. -/
inductive Async : Type where
  | ret : String → Async
  | sleep : ℕ → Async → Async
deriving DecidableEq

/-- Embedding of wash: log twice, suspend for five time units, log again
and return the completion string. -/
def wash (basket : String) : Async :=
  .sleep 5 (.ret (basket ++ " is completed!"))

/-- Number of constructors of a coroutine, a fuel bound for the loop. -/
def sizeA : Async → ℕ
  | .ret _ => 1
  | .sleep _ k => 1 + sizeA k

/-- Earliest wake time among pending timer entries. -/
def minWake : List (ℕ × Async) → ℕ
  | [] => 0
  | [(t, _)] => t
  | (t, _) :: e :: es => min t (minWake (e :: es))

/-- Remove the first entry with the given wake time, keeping order. -/
def extractAt (t : ℕ) : List (ℕ × Async) → Option ((ℕ × Async) × List (ℕ × Async))
  | [] => none
  | e :: es =>
    if e.1 = t then some (e, es)
    else
      match extractAt t es with
      | none => none
      | some (x, l) => some (x, e :: l)

/-- Resume one entry at its wake time: a finished coroutine leaves the
loop, a suspended one is rescheduled after its delay. -/
def stepEntry : ℕ × Async → List (ℕ × Async)
  | (_, .ret _) => []
  | (t, .sleep d k) => [(t + d, k)]

/-- The event loop: repeatedly resume the entry with the earliest wake
time (first inserted wins ties), advancing the virtual clock to that wake
time, until nothing is pending; the result is the clock at termination,
the total elapsed virtual time.  Fuel only guards the recursion and is
sufficient whenever it bounds the total constructor count. -/
def runLoop : ℕ → ℕ → List (ℕ × Async) → Option ℕ
  | _, clock, [] => some clock
  | 0, _, _ :: _ => none
  | fuel + 1, clock, e :: es =>
    let t := minWake (e :: es)
    match extractAt t (e :: es) with
    | none => none
    | some (x, rest) => runLoop fuel (max clock t) (rest ++ stepEntry x)

/-- Elapsed virtual time of asyncio.gather over two coroutines started
together at time zero, as awaited by main. -/
def gatherElapsed (a b : Async) : Option ℕ :=
  runLoop (sizeA a + sizeA b) 0 [(0, a), (0, b)]

/-- Elapsed virtual time of the whole fan-out-and-join demo run, the
quantity the driver measures as wall-clock time around asyncio.run(main()). -/
def demoElapsed : Option ℕ :=
  gatherElapsed (wash "Basket A") (wash "Basket B")

/-- Configuration with no fixed buy-in, as in the shipped driver. -/
def cfg0 : Config :=
  { year := 2024, default_buy_in := none,
    location := "Natural8", bankroll := "Natural8" }

/-- Configuration passing an explicit zero buy-in. -/
def cfgZero : Config :=
  { year := 2024, default_buy_in := some 0,
    location := "Natural8", bankroll := "Natural8" }

/-- A fully-populated row: one cell per recognised column. -/
def row0 : List Cell :=
  [{ classes := ["mat-column-SessionStart"], text := "",
     tooltipText := some "Nov 10, 23:00" },
   { classes := ["mat-column-Stakes"], text := "$0.05/$0.1", tooltipText := none },
   { classes := ["mat-column-Table"], text := "NLH 6-Max", tooltipText := none },
   { classes := ["mat-column-Hands"], text := "123", tooltipText := none },
   { classes := ["mat-column-Duration"], text := "01:30:00", tooltipText := none },
   { classes := ["mat-column-Winloss"], text := "-$5.00", tooltipText := none }]

/-- The Session Record produced from row0 under cfg0. -/
def s0val : Session :=
  { date := some "11/10/2024", stakes := some "0.05/0.1",
    table := some "NLH 6-Max", gameType := some "Texas Hold\x27em",
    hands := some "123", duration := some (3 / 2), winloss := some (-5),
    buyin := some 10, cashout := some 5 }

/-- A row with only a win/loss cell: it yields a field, but it has no
Stakes cell, so the buy-in estimate runs on the empty string. -/
def rowNoStakes : List Cell :=
  [{ classes := ["mat-column-Winloss"], text := "$1.00", tooltipText := none }]

/-- A row whose duration cell holds non-numeric parts. -/
def rowBadDur : List Cell :=
  [{ classes := ["mat-column-Duration"], text := "ab:cd", tooltipText := none }]

/-- A kept record comes from its scanned dictionary by assigning the
chosen buy-in and the derived cash-out. -/
theorem finishSession_ok_some {cfg : Config} {s0 s : Session}
    (h : finishSession cfg s0 = .ok (some s)) :
    ∃ b, chooseBuyin cfg s0 = .ok b ∧
      s = { s0 with buyin := some b,
                    cashout := some (round2 (b + s0.winloss.getD 0)) } := by
  unfold finishSession at h
  by_cases hne : sessionNonempty s0 = true
  · rw [if_pos hne] at h
    cases hcb : chooseBuyin cfg s0 with
    | error e => rw [hcb] at h; simp [Except.map] at h
    | ok b =>
      rw [hcb] at h
      simp only [Except.map, Except.ok.injEq, Option.some.injEq] at h
      exact ⟨b, rfl, h.symm⟩
  · rw [if_neg hne] at h
    simp at h

/-- Inversion of one row step: a successful perRow factors through a
successful scan and a successful finish. -/
theorem perRow_ok_inv {cfg : Config} {r : List Cell} {o : Option Session}
    (h : perRow cfg r = .ok o) :
    ∃ s0, processRow cfg.year r = .ok s0 ∧ finishSession cfg s0 = .ok o := by
  unfold perRow at h
  cases hp : processRow cfg.year r with
  | error e => rw [hp] at h; simp at h
  | ok s0 => rw [hp] at h; exact ⟨s0, rfl, h⟩

/-- Unfolding equation of the row loop on a non-empty row list. -/
theorem scanRows_cons (cfg : Config) (r : List Cell) (rs : List (List Cell)) :
    scanRows cfg (r :: rs) =
      match perRow cfg r with
      | .error e => .error e
      | .ok o =>
        match scanRows cfg rs with
        | .error e => .error e
        | .ok rest =>
          .ok ((match o with | some s1 => [s1] | none => []) ++ rest) := rfl

/-- Every session in a successful scan was kept by finishSession. -/
theorem scanRows_mem_ex (cfg : Config) :
    ∀ (rows : List (List Cell)) (sessions : List Session),
      scanRows cfg rows = .ok sessions →
      ∀ s ∈ sessions, ∃ s0, finishSession cfg s0 = .ok (some s) := by
  intro rows
  induction rows with
  | nil =>
    intro sessions h s hs
    simp only [scanRows, Except.ok.injEq] at h
    subst h
    simp at hs
  | cons r rs ih =>
    intro sessions h s hs
    rw [scanRows_cons] at h
    cases hp : perRow cfg r with
    | error e => rw [hp] at h; simp at h
    | ok o =>
      rw [hp] at h
      cases hr : scanRows cfg rs with
      | error e => rw [hr] at h; simp at h
      | ok rest =>
        rw [hr] at h
        simp only [Except.ok.injEq] at h
        subst h
        cases o with
        | none =>
          simp only [List.nil_append] at hs
          exact ih rest hr s hs
        | some s1 =>
          simp only [List.singleton_append, List.mem_cons] at hs
          rcases hs with rfl | hs
          · obtain ⟨s0, _, hfs⟩ := perRow_ok_inv hp
            exact ⟨s0, hfs⟩
          · exact ih rest hr s hs

/-- Every session in a successful scan records the chosen buy-in and the
cash-out derived from it. -/
theorem scanRows_good {cfg : Config} {rows : List (List Cell)}
    {sessions : List Session} (h : scanRows cfg rows = .ok sessions) :
    ∀ s ∈ sessions, ∃ b, chooseBuyin cfg s = .ok b ∧ s.buyin = some b ∧
      s.cashout = some (round2 (b + s.winloss.getD 0)) := by
  intro s hs
  obtain ⟨s0, hf⟩ := scanRows_mem_ex cfg rows sessions h s hs
  obtain ⟨b, hcb, rfl⟩ := finishSession_ok_some hf
  exact ⟨b, hcb, rfl, rfl⟩

/-- Inversion of convert: a successful result either returned no sessions
or returned exactly the successful scan. -/
theorem convert_ok_inv {cfg : Config} {rows : List (List Cell)}
    {sessions : List Session} {file : Option (List String × List CsvRow)}
    (h : convert cfg rows = .ok (sessions, file)) :
    sessions = [] ∨ scanRows cfg rows = .ok sessions := by
  unfold convert at h
  split at h
  · simp only [Except.ok.injEq, Prod.mk.injEq] at h
    exact Or.inl h.1.symm
  · split at h
    · simp at h
    · rename_i l heq
      split at h
      · simp only [Except.ok.injEq, Prod.mk.injEq] at h
        exact Or.inl h.1.symm
      · simp only [Except.ok.injEq, Prod.mk.injEq] at h
        rcases h with ⟨h1, _⟩
        subst h1
        exact Or.inr heq

/-- Zero and absent default buy-in choose the same buy-in. -/
theorem chooseBuyin_zero (y : ℤ) (loc bk : String) (s : Session) :
    chooseBuyin ⟨y, some 0, loc, bk⟩ s = chooseBuyin ⟨y, none, loc, bk⟩ s := by
  simp [chooseBuyin]

/-- Zero and absent default buy-in finish a row identically. -/
theorem finishSession_zero (y : ℤ) (loc bk : String) (s : Session) :
    finishSession ⟨y, some 0, loc, bk⟩ s = finishSession ⟨y, none, loc, bk⟩ s := by
  unfold finishSession
  rw [chooseBuyin_zero]

/-- Zero and absent default buy-in process a row identically. -/
theorem perRow_zero (y : ℤ) (loc bk : String) (r : List Cell) :
    perRow ⟨y, some 0, loc, bk⟩ r = perRow ⟨y, none, loc, bk⟩ r := by
  unfold perRow
  cases hp : processRow y r with
  | error e => simp [hp]
  | ok s => simp [hp, finishSession_zero]

/-- Zero and absent default buy-in scan all rows identically. -/
theorem scanRows_zero (y : ℤ) (loc bk : String) (rows : List (List Cell)) :
    scanRows ⟨y, some 0, loc, bk⟩ rows = scanRows ⟨y, none, loc, bk⟩ rows := by
  induction rows with
  | nil => rfl
  | cons r rs ih => rw [scanRows_cons, scanRows_cons, perRow_zero, ih]

/-- Zero and absent default buy-in write identical CSV rows. -/
theorem mkCsvRow_zero (y : ℤ) (loc bk : String) :
    mkCsvRow ⟨y, some 0, loc, bk⟩ = mkCsvRow ⟨y, none, loc, bk⟩ := rfl

/-- C1: every Session Record appended by convert_pokercraft_to_bink (and
hence in its returned list) has Cashout = round(Buyin + Winloss, 2), a
Winloss that was never set counting as 0. -/
theorem conv_cashout_invariant (cfg : Config) (rows : List (List Cell))
    (sessions : List Session) (file : Option (List String × List CsvRow))
    (h : convert cfg rows = .ok (sessions, file)) :
    ∀ s ∈ sessions, ∃ b, s.buyin = some b ∧
      s.cashout = some (round2 (b + s.winloss.getD 0)) := by
  intro s hs
  rcases convert_ok_inv h with rfl | hsc
  · simp at hs
  · obtain ⟨b, _, hb, hc⟩ := scanRows_good hsc s hs
    exact ⟨b, hb, hc⟩

/-- Witness for C1 at the fully-populated example row. -/
theorem conv_cashout_invariant_witness :
    ∃ b, s0val.buyin = some b ∧
      s0val.cashout = some (round2 (b + s0val.winloss.getD 0)) :=
  conv_cashout_invariant cfg0 [row0] [s0val]
    (some (csvHeader, [mkCsvRow cfg0 s0val]))
    (by with_unfolding_all decide) s0val (by simp)

/-- C2 counterexample: with default_buy_in provided as 0, the produced
session's Buyin is the stakes estimate 10, not the provided 0. -/
theorem conv_default_zero_cex :
    cfgZero.default_buy_in = some 0 ∧
    (convert cfgZero [row0]).toOption.map (fun res => res.1.map Session.buyin) =
      some [some 10] ∧
    (10 : ℚ) ≠ 0 := by
  refine ⟨rfl, by with_unfolding_all decide, by norm_num⟩

/-- C2 amended: for every produced session, Buyin is the default_buy_in
whenever that argument is provided and non-zero; when it is absent or
provided as zero, Buyin is the estimate from the session's Stakes (the
empty string when Stakes was never set). -/
theorem conv_buyin_choice (cfg : Config) (rows : List (List Cell))
    (sessions : List Session) (file : Option (List String × List CsvRow))
    (h : convert cfg rows = .ok (sessions, file)) :
    ∀ s ∈ sessions,
      (∀ d, cfg.default_buy_in = some d → d ≠ 0 → s.buyin = some d) ∧
      ((cfg.default_buy_in = none ∨ cfg.default_buy_in = some 0) →
        ∃ b, estimate_buyin_from_stakes (s.stakes.getD "") = .ok b ∧
          s.buyin = some b) := by
  intro s hs
  rcases convert_ok_inv h with rfl | hsc
  · simp at hs
  · obtain ⟨b, hcb, hb, _⟩ := scanRows_good hsc s hs
    constructor
    · intro d hd hd0
      unfold chooseBuyin at hcb
      simp only [hd] at hcb
      rw [if_neg hd0] at hcb
      injection hcb with h2
      subst h2
      exact hb
    · intro hcase
      unfold chooseBuyin at hcb
      rcases hcase with hc | hc <;> simp only [hc] at hcb
      · exact ⟨b, hcb, hb⟩
      · rw [if_pos trivial] at hcb
        exact ⟨b, hcb, hb⟩

/-- Witness for the amended C2 at the shipped configuration, which has no
default buy-in. -/
theorem conv_buyin_choice_witness :
    ∃ b, estimate_buyin_from_stakes (s0val.stakes.getD "") = .ok b ∧
      s0val.buyin = some b :=
  (conv_buyin_choice cfg0 [row0] [s0val]
      (some (csvHeader, [mkCsvRow cfg0 s0val]))
      (by with_unfolding_all decide) s0val (by simp)).2
    (Or.inl rfl)

/-- C3: passing default_buy_in as zero behaves exactly as not passing it:
the whole conversion result is identical, so every Buyin comes from
estimate_buyin_from_stakes on the session's Stakes. -/
theorem conv_zero_buyin_like_none (y : ℤ) (loc bk : String)
    (rows : List (List Cell)) :
    convert ⟨y, some 0, loc, bk⟩ rows = convert ⟨y, none, loc, bk⟩ rows := by
  unfold convert
  rw [scanRows_zero, mkCsvRow_zero]

/-- C4: parse_duration splits on colons; three numeric parts give
hours + minutes/60 + seconds/3600 rounded to two decimals, and two
numeric parts are hours and minutes with zero seconds (not minutes and
seconds); "01:30:00" gives 1.5 and "00:45" gives 0.75. -/
theorem parse_duration_spec :
    (∀ s a b c h m sec, pySplit (pyStrip s) ':' = [a, b, c] →
        parseIntPy a = .ok h → parseIntPy b = .ok m → parseIntPy c = .ok sec →
        parse_duration s =
          .ok (round2 ((h : ℚ) + (m : ℚ) / 60 + (sec : ℚ) / 3600))) ∧
    (∀ s a b h m, pySplit (pyStrip s) ':' = [a, b] →
        parseIntPy a = .ok h → parseIntPy b = .ok m →
        parse_duration s =
          .ok (round2 ((h : ℚ) + (m : ℚ) / 60 + (0 : ℚ) / 3600))) ∧
    parse_duration "01:30:00" = .ok (3 / 2) ∧
    parse_duration "00:45" = .ok (3 / 4) := by
  refine ⟨?_, ?_, by with_unfolding_all decide, by with_unfolding_all decide⟩
  · intro s a b c h m sec hsp ha hb hc
    unfold parse_duration
    rw [hsp]
    simp [ha, hb, hc]
  · intro s a b h m hsp ha hb
    unfold parse_duration
    rw [hsp]
    simp [ha, hb]

/-- Witness for C4 at the three-part example duration. -/
theorem parse_duration_spec_witness :
    parse_duration "01:30:00" =
      .ok (round2 (((1 : ℤ) : ℚ) + ((30 : ℤ) : ℚ) / 60 + ((0 : ℤ) : ℚ) / 3600)) :=
  parse_duration_spec.1 "01:30:00" "01" "30" "00" 1 30 0
    (by decide) (by decide) (by decide) (by decide)

/-- C5: parse_date never propagates a failure: whenever the try body
fails it returns the empty string, and routing a session-start cell never
aborts the row scan, whatever the date text. -/
theorem parse_date_no_raise :
    (∀ s y, parse_date_attempt s y = none → parse_date s y = "") ∧
    (∀ y sess c, "mat-column-SessionStart" ∈ c.classes →
        ∃ s2, processCell y sess c = .ok s2) := by
  constructor
  · intro s y h
    unfold parse_date
    rw [h]
    rfl
  · intro y sess c hc
    unfold processCell
    rw [if_pos hc]
    exact ⟨_, rfl⟩

/-- Witness for C5 at a malformed date string and the example date cell. -/
theorem parse_date_no_raise_witness :
    parse_date "garbage" 2024 = "" ∧
    ∃ s2, processCell 2024 emptySession
        { classes := ["mat-column-SessionStart"], text := "",
          tooltipText := some "Nov 10, 23:00" } = .ok s2 :=
  ⟨parse_date_no_raise.1 "garbage" 2024 (by decide),
   parse_date_no_raise.2 2024 emptySession _ (by decide)⟩

/-- C6: no marked rows, or a scan that keeps no sessions, returns the
empty list with no file written; a single row kept as a session returns
exactly that Session Record and writes the header plus one data row. -/
theorem conv_empty_and_single :
    (∀ cfg, convert cfg [] = .ok ([], none)) ∧
    (∀ cfg rows, scanRows cfg rows = .ok [] → convert cfg rows = .ok ([], none)) ∧
    (∀ cfg r s, perRow cfg r = .ok (some s) →
        convert cfg [r] = .ok ([s], some (csvHeader, [mkCsvRow cfg s]))) := by
  refine ⟨fun cfg => rfl, ?_, ?_⟩
  · intro cfg rows h
    unfold convert
    by_cases hre : rows.isEmpty = true
    · rw [if_pos hre]
    · rw [if_neg hre, h]
      rfl
  · intro cfg r s h
    have hs : scanRows cfg [r] = .ok [s] := by
      rw [scanRows_cons, h]
      rfl
    unfold convert
    rw [if_neg (by simp : ¬([r].isEmpty = true)), hs]
    rfl

/-- Witness for C6: a row of no cells keeps no session and writes
nothing; the fully-populated example row writes the header and one row. -/
theorem conv_empty_and_single_witness :
    convert cfg0 [[]] = .ok ([], none) ∧
    convert cfg0 [row0] = .ok ([s0val], some (csvHeader, [mkCsvRow cfg0 s0val])) :=
  ⟨conv_empty_and_single.2.1 cfg0 [[]] (by decide),
   conv_empty_and_single.2.2 cfg0 row0 s0val (by with_unfolding_all decide)⟩

/-- C7: a stakes string with no slash (such as the empty string used when
a row has no Stakes cell) or a duration with non-numeric parts raises,
nothing in the pipeline catches it, and the error propagates out of
convert, failing the whole run. -/
theorem conv_malformed_propagates :
    estimate_buyin_from_stakes "" = .error "IndexError" ∧
    parse_duration "ab:cd" = .error "ValueError" ∧
    (∀ cfg r e rest, perRow cfg r = .error e →
        convert cfg (r :: rest) = .error e) ∧
    convert cfg0 [rowBadDur] = .error "ValueError" := by
  refine ⟨by decide, by decide, ?_, by decide⟩
  intro cfg r e rest h
  unfold convert
  rw [if_neg (by simp : ¬((r :: rest).isEmpty = true)), scanRows_cons, h]

/-- Witness for C7: a run whose only row lacks a Stakes cell fails whole
with the IndexError raised inside the buy-in estimate. -/
theorem conv_malformed_propagates_witness :
    convert cfg0 (rowNoStakes :: []) = .error "IndexError" :=
  conv_malformed_propagates.2.2.1 cfg0 rowNoStakes "IndexError" []
    (by with_unfolding_all decide)

/-- C8: parse_game_type matches case-insensitive substrings of the table
name: NLH, HOLDEM or HOLD'EM give Texas Hold'em; otherwise PLO or OMAHA
give Omaha; every other table name defaults to Texas Hold'em. -/
theorem parse_game_type_spec (t : String) :
    ((containsCI t "NLH" || containsCI t "HOLDEM" ||
        containsCI t "HOLD\x27EM") = true →
      parse_game_type t = "Texas Hold\x27em") ∧
    ((containsCI t "NLH" || containsCI t "HOLDEM" ||
        containsCI t "HOLD\x27EM") = false →
      (containsCI t "PLO" || containsCI t "OMAHA") = true →
      parse_game_type t = "Omaha") ∧
    ((containsCI t "NLH" || containsCI t "HOLDEM" ||
        containsCI t "HOLD\x27EM") = false →
      (containsCI t "PLO" || containsCI t "OMAHA") = false →
      parse_game_type t = "Texas Hold\x27em") := by
  have e1 : containsCI t "NLH" = pyContains (pyUpper t) "NLH" := rfl
  have e2 : containsCI t "HOLDEM" = pyContains (pyUpper t) "HOLDEM" := rfl
  have e3 : containsCI t "HOLD\x27EM" = pyContains (pyUpper t) "HOLD\x27EM" := rfl
  have e4 : containsCI t "PLO" = pyContains (pyUpper t) "PLO" := rfl
  have e5 : containsCI t "OMAHA" = pyContains (pyUpper t) "OMAHA" := rfl
  refine ⟨?_, ?_, ?_⟩
  · intro h1
    rw [e1, e2, e3] at h1
    simp [parse_game_type, h1]
  · intro h1 h2
    rw [e1, e2, e3] at h1
    rw [e4, e5] at h2
    simp [parse_game_type, h1, h2]
  · intro h1 h2
    rw [e1, e2, e3] at h1
    rw [e4, e5] at h2
    simp [parse_game_type, h1, h2]

/-- Witness for C8 at an Omaha table name. -/
theorem parse_game_type_spec_witness :
    parse_game_type "PLO Omaha Hi" = "Omaha" :=
  (parse_game_type_spec "PLO Omaha Hi").2.1 (by decide) (by decide)

/-- C9: estimate_buyin_from_stakes splits on the slash with dollar signs
stripped, parses the second (big-blind) part, multiplies it by 100 and
rounds to two decimals; on "0.05/0.1" it yields 10. -/
theorem estimate_buyin_spec :
    estimate_buyin_from_stakes "0.05/0.1" = .ok 10 ∧
    (∀ s p0 p1 rest bb,
        splitChars '/' (removeChar '$' s.toList) = p0 :: p1 :: rest →
        parseFloatPy (String.mk p1) = .ok bb →
        estimate_buyin_from_stakes s = .ok (round2 (bb * 100))) := by
  refine ⟨by with_unfolding_all decide, ?_⟩
  intro s p0 p1 rest bb hsp hbb
  unfold estimate_buyin_from_stakes
  rw [hsp]
  simp [hbb]

/-- Witness for C9 at the example stakes. -/
theorem estimate_buyin_spec_witness :
    estimate_buyin_from_stakes "0.05/0.1" = .ok (round2 ((1 / 10 : ℚ) * 100)) :=
  estimate_buyin_spec.2 "0.05/0.1" ['0', '.', '0', '5'] ['0', '.', '1'] []
    (1 / 10) (by decide) (by with_unfolding_all decide)

/-- C10: in the discrete-event model of the cooperative scheduler, where
sleeping suspends a task and the loop resumes the earliest-due task while
the virtual clock advances, the fan-out-and-join demo's measured elapsed
time for washing both baskets is one five-unit delay period, not the
ten-unit sum of both delays. -/
theorem demo_concurrent_elapsed :
    demoElapsed = some 5 ∧ demoElapsed ≠ some (5 + 5) := by
  constructor
  · decide
  · decide
